import Mathlib

/-!
Shallow embedding of meinside/telegram-bot-sox (src/main.go).

The bot polls Telegram for updates, keeps a per-user "session" holding a
selected sox preset, and converts incoming voice messages by piping them
through an external `sox` process.  We embed the three core functions
`soxConvert`, `processUpdate` and `processCallbackQuery`, the `init`
session-pool construction, and the dispatch loop of `main` as pure Lean
functions.  External effects (Telegram API calls, the sox subprocess, the
HTTP file fetch) are abstracted by an `Oracle` of response functions, and
each handler additionally returns the ordered list of observable `Event`s
it performs (lock/unlock of the session-pool mutex, API sends, subprocess
invocations), mirroring the statement order of the Go source.  Byte
buffers are modelled as `String` (Go strings and byte slices are
interconvertible byte-for-byte).  A Go nil-pointer dereference of an
optional field is modelled by the handler returning `none`.
-/

set_option autoImplicit false

namespace BotSox

/-! ## Constants from main.go -/

def commandStart : String := "/start"
def commandPreset : String := "/preset"
def commandChangePreset : String := "/presetchange"
def commandHelp : String := "/help"
def commandCancel : String := "/cancel"

def messageDefault : String := "Record your voice to start."
def messageSelectPreset : String := "Select a preset."
def messageNoPreset : String := "No preset available."
def messageNoMatchingPreset : String := "No such preset"
def messagePresetChanged : String := "Applied preset"
def messagePresetNotSet : String := "Preset not set"
def messageUnknownCommand : String := "Unknown command"
def messageCancel : String := "Cancel"
def messageCanceled : String := "Canceled."

/-- Hard-coded fallback preset arguments (`soxDefaultPreset` in main.go). -/
def soxDefaultPreset : List String := ["speed", "1.0"]

/-! ## Go string primitives

Go's `strings.HasPrefix`, `strings.TrimPrefix` and `strings.TrimSpace`,
embedded over the character data of Lean strings. -/

def goHasPrefix (s prefixStr : String) : Bool :=
  List.isPrefixOf prefixStr.data s.data

def goTrimPrefix (s prefixStr : String) : String :=
  if List.isPrefixOf prefixStr.data s.data then
    String.mk (s.data.drop prefixStr.data.length)
  else s

/-- Unicode White_Space test used by Go's `strings.TrimSpace`. -/
def goIsSpace (c : Char) : Bool :=
  c = ' ' || c = '\t' || c = '\n' || c = '\x0b' || c = '\x0c' || c = '\r' ||
  c = Char.ofNat 0x85 || c = Char.ofNat 0xA0 || c = Char.ofNat 0x1680 ||
  (0x2000 ≤ c.toNat && c.toNat ≤ 0x200A) ||
  c = Char.ofNat 0x2028 || c = Char.ofNat 0x2029 || c = Char.ofNat 0x202F ||
  c = Char.ofNat 0x205F || c = Char.ofNat 0x3000

def goTrimSpace (s : String) : String :=
  String.mk (((s.data.dropWhile goIsSpace).reverse.dropWhile goIsSpace).reverse)

/-! ## Go map embedding

Go maps are embedded as association lists; `mapSet` is Go's `m[k] = v`
(replace the binding if the key is present, insert otherwise), and lookup
is `List.lookup`.  `mapKeys` is the key set. -/

def mapSet {β : Type} (m : List (String × β)) (k : String) (v : β) :
    List (String × β) :=
  match m with
  | [] => [(k, v)]
  | (k₀, v₀) :: rest =>
    if k = k₀ then (k, v) :: rest else (k₀, v₀) :: mapSet rest k v

def mapKeys {β : Type} (m : List (String × β)) : List String :=
  m.map Prod.fst

/-! ## Configuration, sessions, updates -/

/-- Fields of the process-wide configuration that the handlers read
(`soxPath`, `soxPresets`, `availableIds` in main.go). -/
structure Config where
  soxPath : String
  soxPresets : List (String × List String)
  availableIds : List String
  deriving DecidableEq

/-- Per-user session (type `session` in main.go). -/
structure Session where
  userId : String
  selectedPreset : String
  deriving DecidableEq

/-- The shared session store (`sessionPool.Sessions` in main.go). -/
structure SessionPool where
  sessions : List (String × Session)
  deriving DecidableEq

/-- Session-pool construction performed in `init`: one session per entry of
the allow-list, with the zero-value (empty) selected preset. -/
def initPool (availableIds : List String) : SessionPool :=
  ⟨availableIds.foldl (fun m v => mapSet m v ⟨v, ""⟩) []⟩

/-- Telegram user as the handlers see it; `username` is an optional field. -/
structure User where
  firstName : String
  username : Option String
  deriving DecidableEq

/-- Message update: sender, optional text, optional voice attachment
(represented by its file id), and the chat id replies go to. -/
structure Msg where
  sender : User
  text : Option String
  voice : Option String
  chatId : Int
  deriving DecidableEq

/-- Callback-query update: id, sender, optional payload (`Data` is a
string pointer in the Go bot library), and the originating message. -/
structure CallbackQuery where
  id : String
  sender : User
  data : Option String
  chatId : Int
  messageId : Int
  deriving DecidableEq

/-- Either kind of update the monitoring loop dispatches on. -/
inductive Update where
  | msg (m : Msg)
  | cb (q : CallbackQuery)
  deriving DecidableEq

/-! ## Observable events -/

/-- Reply-markup attached to an outbound text message: either the static
reply keyboard (`allKeyboards`) or an inline keyboard whose buttons are
(label, callback-data) pairs, one per entry of the Go map handed to
`NewInlineKeyboardButtonsAsRowsWithCallbackData`. -/
inductive Markup where
  | replyKeyboard
  | inline (buttons : List (String × String))
  deriving DecidableEq

/-- Observable actions of one handler invocation, in source order. -/
inductive Event where
  | lock
  | unlock
  | sendChatAction (action : String)
  | fetchFile (fileId : String)
  | convertCall (bin : String) (args : List String)
  | sendVoice (caption : Option String)
  | sendMessage (text : String) (markup : Markup)
  | answerCallback (queryId : String) (text : String)
  | editMessage (text : String)
  deriving DecidableEq

/-- Outbound events: everything sent back through the Telegram API. -/
def Event.isOutbound : Event → Bool
  | .lock => false
  | .unlock => false
  | .fetchFile _ => false
  | .convertCall _ _ => false
  | _ => true

/-! ## External collaborators -/

/-- Result of running the external sox process: whether `cmd.Run`
returned nil, and the captured stdout/stderr buffers. -/
structure ExecResult where
  ok : Bool
  stdout : String
  stderr : String
  deriving DecidableEq

/-- Responses of the external world: the sox subprocess (given its
argument list and stdin bytes), the voice-file fetch
(`GetFile` + HTTP GET + `ReadAll`, collapsed to one fallible call), and
the success of each Telegram API call. -/
structure Oracle where
  runSox : List String → String → ExecResult
  getFileData : String → Except String String
  sendOk : Bool
  sendVoiceOk : Bool
  answerOk : Bool
  editOk : Bool

/-! ## Converter (`soxConvert`) -/

/-- Argument list built by `soxConvert`: the fixed stdin-opus/stdout-ogg
prefix, then the configured preset's arguments if the name is a key of
`soxPresets`, else the hard-coded default preset. -/
def soxArgs (presets : List (String × List String)) (preset : String) :
    List String :=
  ["-t", "opus", "-", "-t", "ogg", "-"] ++
    (match List.lookup preset presets with
     | some p => p
     | none => soxDefaultPreset)

/-- Embedding of `soxConvert`: run the sox binary on the argument list with
the original bytes on stdin; on a nil error return the captured stdout
bytes, otherwise an error formatted as in the source
(`fmt.Errorf("%s %s", out, errs)`). -/
def soxConvert (env : Config) (o : Oracle) (original : String)
    (preset : String) : Except String String × List Event :=
  let args := soxArgs env.soxPresets preset
  let r := o.runSox args original
  (if r.ok then Except.ok r.stdout
   else Except.error (r.stdout ++ " " ++ r.stderr),
   [Event.convertCall env.soxPath args])

/-- Embedding of `synthesizeVoiceWithFileId`: fetch the voice file's bytes,
then convert them with the selected preset. -/
def synthesizeVoiceWithFileId (env : Config) (o : Oracle) (fileId : String)
    (preset : String) : Except String String × List Event :=
  match o.getFileData fileId with
  | Except.ok data =>
    let (r, ev) := soxConvert env o data preset
    (r, Event.fetchFile fileId :: ev)
  | Except.error e => (Except.error e, [Event.fetchFile fileId])

/-! ## Command dispatcher -/

/-- Allow-list membership test (`isAvailableId`). -/
def isAvailableId (env : Config) (id : String) : Bool :=
  env.availableIds.contains id

/-- Static help text returned by `getHelp`. -/
def getHelp : String :=
  "\nFollowing commands are supported:\n\n/preset: change preset\n/help : show this help message\n"

/-- The inline-keyboard map built for the preset command: one entry per
configured preset name mapping to the change-preset callback payload,
then the cancel entry, inserted in that order into one Go map. -/
def presetKeys (presets : List (String × List String)) :
    List (String × String) :=
  mapSet
    (presets.foldl
      (fun acc p => mapSet acc p.1 (commandChangePreset ++ " " ++ p.1)) [])
    messageCancel commandCancel

/-- Text-command classification of `processUpdate` (the `switch` over
prefixes, first match wins): returns the reply text and its markup. -/
def classifyText (env : Config) (txt : String) : String × Markup :=
  if goHasPrefix txt commandStart then
    (messageDefault, Markup.replyKeyboard)
  else if goHasPrefix txt commandPreset then
    (if env.soxPresets.length > 0 then
       (messageSelectPreset, Markup.inline (presetKeys env.soxPresets))
     else (messageNoPreset, Markup.replyKeyboard))
  else if goHasPrefix txt commandHelp then
    (getHelp, Markup.replyKeyboard)
  else
    (messageUnknownCommand ++ ": " ++ txt, Markup.replyKeyboard)

/-- Caption attached to the converted voice reply: the preset name and its
space-joined arguments, or the preset-not-set notice. -/
def voiceCaption (env : Config) (selectedPreset : String) : String :=
  if selectedPreset.length > 0 then
    selectedPreset ++ " (" ++
      (String.intercalate " "
        ((List.lookup selectedPreset env.soxPresets).getD [])) ++ ")"
  else messagePresetNotSet

/-- Embedding of `processUpdate`: drop the update when the sender has no
username or is not allow-listed; otherwise take the pool lock, look up the
session, handle a voice message by fetching and converting it, or classify
the text and send the reply, then release the lock.  Returns the `result`
flag and the event trace. -/
def processUpdate (env : Config) (o : Oracle) (st : SessionPool)
    (m : Msg) : Bool × List Event :=
  match m.sender.username with
  | none => (false, [])
  | some userId =>
    if !isAvailableId env userId then (false, [])
    else
      match List.lookup userId st.sessions with
      | none => (false, [Event.lock, Event.unlock])
      | some sess =>
        match m.voice with
        | some fileId =>
          let (synth, synthEv) :=
            synthesizeVoiceWithFileId env o fileId sess.selectedPreset
          (match synth with
           | Except.ok _ =>
             (o.sendVoiceOk,
              Event.lock :: Event.sendChatAction "record_audio" :: synthEv ++
                [Event.sendChatAction "upload_audio",
                 Event.sendVoice (some (voiceCaption env sess.selectedPreset)),
                 Event.unlock])
           | Except.error e =>
             (false,
              Event.lock :: Event.sendChatAction "record_audio" :: synthEv ++
                [Event.sendMessage ("Failed to synthesize voice: " ++ e)
                   Markup.replyKeyboard,
                 Event.unlock]))
        | none =>
          let txt := m.text.getD ""
          let (message, markup) := classifyText env txt
          (o.sendOk,
           [Event.lock, Event.sendMessage message markup, Event.unlock])

/-- Tail of `processCallbackQuery` (lines 289-305): when the accumulated
message is non-empty, answer the callback query; if that succeeds, edit the
original message, and the result is the edit's success. -/
def cbFinish (o : Oracle) (queryId : String) (message : String)
    (st : SessionPool) : Bool × SessionPool × List Event :=
  if message.length > 0 then
    if o.answerOk then
      (o.editOk, st,
       [Event.answerCallback queryId message, Event.editMessage message])
    else (false, st, [Event.answerCallback queryId message])
  else (false, st, [])

/-- Embedding of `processCallbackQuery`.  The Go code dereferences
`query.Data` unconditionally and `query.From.Username` on the
existing-preset branch; a nil there is a runtime fault, modelled as
`none`.  A change-preset payload naming a configured preset from an
allow-listed sender rewrites that sender's session in the pool (without
the pool lock); an unknown preset name or a cancel payload only produces
an acknowledgement. -/
def processCallbackQuery (env : Config) (o : Oracle) (st : SessionPool)
    (q : CallbackQuery) : Option (Bool × SessionPool × List Event) :=
  match q.data with
  | none => none
  | some txt =>
    if goHasPrefix txt commandChangePreset then
      let preset := goTrimSpace (goTrimPrefix txt commandChangePreset)
      match List.lookup preset env.soxPresets with
      | some _ =>
        (match q.sender.username with
         | none => none
         | some userId =>
           if !isAvailableId env userId then
             some (cbFinish o q.id "" st)
           else
             some (cbFinish o q.id (messagePresetChanged ++ ": " ++ preset)
               ⟨mapSet st.sessions userId ⟨userId, preset⟩⟩))
      | none =>
        some (cbFinish o q.id (messageNoMatchingPreset ++ ": " ++ preset) st)
    else if goHasPrefix txt commandCancel then
      some (cbFinish o q.id messageCanceled st)
    else
      some (cbFinish o q.id "" st)

/-! ## Update loop -/

/-- Effect of one dispatched update on the session pool, as in the
monitoring callback of `main`: message updates go to `processUpdate`
(which never writes the pool), callback queries to `processCallbackQuery`;
`none` propagates a handler fault. -/
def stepUpdate (env : Config) (o : Oracle) (st : SessionPool)
    (u : Update) : Option SessionPool :=
  match u with
  | Update.msg m =>
    let _ := processUpdate env o st m
    some st
  | Update.cb q => (processCallbackQuery env o st q).map (fun r => r.2.1)

/-- Session pool reached after processing a sequence of updates. -/
def reach (env : Config) (o : Oracle) (st : SessionPool) :
    List Update → Option SessionPool
  | [] => some st
  | u :: us =>
    match stepUpdate env o st u with
    | none => none
    | some st₁ => reach env o st₁ us

/-! ## Concrete fixtures used to exercise the theorems -/

/-- Sample configuration: one preset named fast, one allow-listed user. -/
def wEnv : Config := ⟨"/usr/bin/sox", [("fast", ["speed", "1.6"])], ["alice"]⟩

/-- Sample configuration whose only preset shares the cancel button's
label. -/
def wEnvCancel : Config :=
  ⟨"/usr/bin/sox", [("Cancel", ["speed", "2.0"])], ["alice"]⟩

/-- Oracle in which every external call succeeds; sox echoes its stdin. -/
def wOracle : Oracle :=
  { runSox := fun _ stdin => ⟨true, stdin, ""⟩
    getFileData := fun _ => Except.ok "voicebytes"
    sendOk := true
    sendVoiceOk := true
    answerOk := true
    editOk := true }

/-- Oracle in which the sox process fails after printing a warning to
stdout and an error to stderr. -/
def wOracleSoxFail : Oracle :=
  { runSox := fun _ _ => ⟨false, "warn", "err"⟩
    getFileData := fun _ => Except.ok "voicebytes"
    sendOk := true
    sendVoiceOk := true
    answerOk := true
    editOk := true }

/-- Session pool right after startup for the sample configuration. -/
def wPool : SessionPool := initPool ["alice"]

/-- Callback query from alice selecting the configured preset. -/
def wQChange : CallbackQuery :=
  ⟨"q1", ⟨"Alice", some "alice"⟩, some "/presetchange fast", 7, 9⟩

/-- Callback query from alice naming a preset that is not configured. -/
def wQMiss : CallbackQuery :=
  ⟨"q2", ⟨"Alice", some "alice"⟩, some "/presetchange nope", 7, 9⟩

/-- Cancel callback from a sender who is not on the allow-list. -/
def wQCancelUnauthorized : CallbackQuery :=
  ⟨"q3", ⟨"Mallory", some "mallory"⟩, some "/cancel", 7, 9⟩

/-- Callback query with an absent payload. -/
def wQNoPayload : CallbackQuery :=
  ⟨"q4", ⟨"Alice", some "alice"⟩, none, 7, 9⟩

/-- Change-preset callback naming a configured preset, but from a sender
who is not on the allow-list. -/
def wQChangeUnauthorized : CallbackQuery :=
  ⟨"q5", ⟨"Mallory", some "mallory"⟩, some "/presetchange fast", 7, 9⟩

/-- Plain text message from alice matching no command. -/
def wMsgHello : Msg := ⟨⟨"Alice", some "alice"⟩, some "hello", none, 7⟩

/-- Preset command message from alice. -/
def wMsgPresetCmd : Msg := ⟨⟨"Alice", some "alice"⟩, some "/preset", none, 7⟩

/-- Voice message from alice. -/
def wMsgVoice : Msg := ⟨⟨"Alice", some "alice"⟩, none, some "file1", 7⟩

/-- Message from a sender who is not on the allow-list. -/
def wMsgUnauthorized : Msg :=
  ⟨⟨"Mallory", some "mallory"⟩, some "/start", none, 7⟩

/-- Message from a sender with no username. -/
def wMsgNoUsername : Msg := ⟨⟨"Bob", none⟩, some "/start", none, 7⟩

/-! ## Lemmas about the Go-map embedding -/

theorem mem_mapKeys_mapSet {β : Type} (m : List (String × β)) (k x : String)
    (v : β) :
    x ∈ mapKeys (mapSet m k v) ↔ x = k ∨ x ∈ mapKeys m := by
  induction m with
  | nil => simp [mapSet, mapKeys]
  | cons p rest ih =>
    obtain ⟨k₀, v₀⟩ := p
    by_cases h : k = k₀
    · subst h
      simp [mapSet, mapKeys]
    · simp only [mapSet, if_neg h, mapKeys, List.map_cons, List.mem_cons]
      rw [mapKeys] at ih
      rw [ih]
      tauto

theorem length_mapSet_of_mem {β : Type} (m : List (String × β))
    (k : String) (v : β) (h : k ∈ mapKeys m) :
    (mapSet m k v).length = m.length := by
  induction m with
  | nil => simp [mapKeys] at h
  | cons p rest ih =>
    obtain ⟨k₀, v₀⟩ := p
    by_cases hk : k = k₀
    · subst hk
      simp [mapSet]
    · simp only [mapKeys, List.map_cons, List.mem_cons] at h
      rcases h with h | h
      · exact absurd h hk
      · simp only [mapSet, if_neg hk, List.length_cons]
        rw [ih h]

theorem length_mapSet_of_not_mem {β : Type} (m : List (String × β))
    (k : String) (v : β) (h : k ∉ mapKeys m) :
    (mapSet m k v).length = m.length + 1 := by
  induction m with
  | nil => simp [mapSet]
  | cons p rest ih =>
    obtain ⟨k₀, v₀⟩ := p
    simp only [mapKeys, List.map_cons, List.mem_cons, not_or] at h
    simp only [mapSet, if_neg h.1, List.length_cons]
    rw [ih h.2]

theorem lookup_cons {β : Type} (k k₁ : String) (v₁ : β)
    (rest : List (String × β)) :
    List.lookup k ((k₁, v₁) :: rest) =
      if k = k₁ then some v₁ else List.lookup k rest := by
  by_cases h : k = k₁
  · subst h
    simp [List.lookup]
  · simp [List.lookup, beq_eq_false_iff_ne.mpr h, h]

theorem lookup_mapSet {β : Type} (m : List (String × β)) (k k₀ : String)
    (v : β) :
    List.lookup k (mapSet m k₀ v) =
      if k = k₀ then some v else List.lookup k m := by
  induction m with
  | nil =>
    exact lookup_cons k k₀ v []
  | cons p rest ih =>
    obtain ⟨k₁, v₁⟩ := p
    by_cases h₀ : k₀ = k₁
    · subst h₀
      have hm : mapSet ((k₀, v₁) :: rest) k₀ v = (k₀, v) :: rest := by
        simp [mapSet]
      rw [hm, lookup_cons, lookup_cons]
      by_cases hk : k = k₀ <;> simp [hk]
    · have hm : mapSet ((k₁, v₁) :: rest) k₀ v =
          (k₁, v₁) :: mapSet rest k₀ v := by
        simp only [mapSet]
        rw [if_neg h₀]
      rw [hm, lookup_cons, lookup_cons, ih]
      by_cases hk₁ : k = k₁ <;> by_cases hk₀ : k = k₀
      · exact absurd (hk₀.symm.trans hk₁) h₀
      · simp [hk₁, hk₀, show ¬k₁ = k₀ from fun hh => h₀ hh.symm]
      · simp [hk₁, hk₀, h₀]
      · simp [hk₁, hk₀]

theorem lookup_foldl_mapSet (ids : List String)
    (acc : List (String × Session)) (k : String) (s : Session)
    (h : List.lookup k (ids.foldl (fun m v => mapSet m v ⟨v, ""⟩) acc) =
      some s) :
    s.selectedPreset = "" ∨ List.lookup k acc = some s := by
  induction ids generalizing acc with
  | nil => exact Or.inr h
  | cons a ids ih =>
    simp only [List.foldl_cons] at h
    rcases ih (mapSet acc a ⟨a, ""⟩) h with h₁ | h₁
    · exact Or.inl h₁
    · rw [lookup_mapSet] at h₁
      by_cases hk : k = a
      · rw [if_pos hk] at h₁
        cases h₁
        exact Or.inl rfl
      · rw [if_neg hk] at h₁
        exact Or.inr h₁

theorem mem_mapKeys_foldl_mapSet {β : Type} (f : String → β)
    (ids : List String) (acc : List (String × β)) (x : String) :
    x ∈ mapKeys (ids.foldl (fun m v => mapSet m v (f v)) acc) ↔
      x ∈ mapKeys acc ∨ x ∈ ids := by
  induction ids generalizing acc with
  | nil => simp
  | cons a ids ih =>
    simp only [List.foldl_cons, List.mem_cons]
    rw [ih, mem_mapKeys_mapSet]
    tauto

theorem mem_mapKeys_initPool (ids : List String) (x : String) :
    x ∈ mapKeys (initPool ids).sessions ↔ x ∈ ids := by
  have h := mem_mapKeys_foldl_mapSet (fun v => (⟨v, ""⟩ : Session)) ids [] x
  simp only [initPool]
  rw [h]
  simp [mapKeys]

theorem lookup_initPool (ids : List String) (k : String) (s : Session)
    (h : List.lookup k (initPool ids).sessions = some s) :
    s.selectedPreset = "" := by
  rcases lookup_foldl_mapSet ids [] k s h with h₁ | h₁
  · exact h₁
  · simp [List.lookup] at h₁

theorem mem_mapKeys_presetFold (presets : List (String × List String))
    (acc : List (String × String)) (x : String) :
    x ∈ mapKeys (presets.foldl
      (fun a p => mapSet a p.1 (commandChangePreset ++ " " ++ p.1)) acc) ↔
      x ∈ mapKeys acc ∨ x ∈ presets.map Prod.fst := by
  induction presets generalizing acc with
  | nil => simp
  | cons p ps ih =>
    simp only [List.foldl_cons, List.map_cons, List.mem_cons]
    rw [ih, mem_mapKeys_mapSet]
    tauto

theorem length_presetFold (presets : List (String × List String))
    (acc : List (String × String))
    (hnd : (presets.map Prod.fst).Nodup)
    (hdisj : ∀ x ∈ presets.map Prod.fst, x ∉ mapKeys acc) :
    (presets.foldl
      (fun a p => mapSet a p.1 (commandChangePreset ++ " " ++ p.1))
        acc).length = acc.length + presets.length := by
  induction presets generalizing acc with
  | nil => simp
  | cons p ps ih =>
    simp only [List.map_cons, List.nodup_cons] at hnd
    have hp : p.1 ∉ mapKeys acc := by
      apply hdisj
      simp
    simp only [List.foldl_cons, List.length_cons]
    rw [ih (mapSet acc p.1 (commandChangePreset ++ " " ++ p.1)) hnd.2]
    · rw [length_mapSet_of_not_mem _ _ _ hp]
      omega
    · intro x hx
      rw [mem_mapKeys_mapSet]
      push_neg
      constructor
      · intro he
        exact hnd.1 (he ▸ hx)
      · exact hdisj x (by simp [hx])

theorem presetKeys_length (presets : List (String × List String))
    (hnd : (presets.map Prod.fst).Nodup) :
    (presetKeys presets).length =
      if messageCancel ∈ presets.map Prod.fst then presets.length
      else presets.length + 1 := by
  have hlen := length_presetFold presets [] hnd (by simp [mapKeys])
  have hkeys := mem_mapKeys_presetFold presets [] messageCancel
  simp only [mapKeys, List.map_nil, List.not_mem_nil, false_or,
    List.length_nil, Nat.zero_add] at hlen hkeys
  by_cases hc : messageCancel ∈ presets.map Prod.fst
  · rw [if_pos hc]
    unfold presetKeys
    rw [length_mapSet_of_mem _ _ _ (hkeys.mpr hc), hlen]
  · rw [if_neg hc]
    unfold presetKeys
    rw [length_mapSet_of_not_mem _ _ _ (fun h => hc (hkeys.mp h)), hlen]

/-! ## Shape lemmas for the handlers -/

theorem isAvailableId_iff (env : Config) (u : String) :
    isAvailableId env u = true ↔ u ∈ env.availableIds := by
  simp [isAvailableId, List.contains_iff_exists_mem_beq, beq_iff_eq]

theorem cbFinish_pool (o : Oracle) (qid msg : String) (st : SessionPool) :
    (cbFinish o qid msg st).2.1 = st := by
  unfold cbFinish
  split
  · split <;> rfl
  · rfl

theorem cbFinish_no_lock (o : Oracle) (qid msg : String) (st : SessionPool) :
    Event.lock ∉ (cbFinish o qid msg st).2.2 ∧
    Event.unlock ∉ (cbFinish o qid msg st).2.2 := by
  unfold cbFinish
  split
  · split <;> simp
  · simp

theorem cbFinish_empty (o : Oracle) (qid : String) (st : SessionPool) :
    cbFinish o qid "" st = (false, st, []) := by
  simp [cbFinish]

theorem cbFinish_mem_answer (o : Oracle) (qid msg : String)
    (st : SessionPool) (h : 0 < msg.length) :
    Event.answerCallback qid msg ∈ (cbFinish o qid msg st).2.2 := by
  unfold cbFinish
  rw [if_pos h]
  by_cases ha : o.answerOk <;> simp [ha]

theorem processUpdate_username_none (env : Config) (o : Oracle)
    (st : SessionPool) (m : Msg) (h : m.sender.username = none) :
    processUpdate env o st m = (false, []) := by
  simp [processUpdate, h]

theorem processUpdate_unauthorized (env : Config) (o : Oracle)
    (st : SessionPool) (m : Msg) (u : String)
    (h : m.sender.username = some u) (h₂ : isAvailableId env u = false) :
    processUpdate env o st m = (false, []) := by
  simp [processUpdate, h, h₂]

theorem processUpdate_text (env : Config) (o : Oracle) (st : SessionPool)
    (m : Msg) (userId : String) (sess : Session) (txt : String)
    (h₁ : m.sender.username = some userId)
    (h₂ : isAvailableId env userId = true)
    (h₃ : List.lookup userId st.sessions = some sess)
    (h₄ : m.voice = none) (h₅ : m.text = some txt) :
    processUpdate env o st m =
      (o.sendOk,
       [Event.lock,
        Event.sendMessage (classifyText env txt).1 (classifyText env txt).2,
        Event.unlock]) := by
  rcases hc : classifyText env txt with ⟨message, markup⟩
  simp [processUpdate, h₁, h₂, h₃, h₄, h₅, hc]

theorem processCallbackQuery_data_none (env : Config) (o : Oracle)
    (st : SessionPool) (q : CallbackQuery) (h : q.data = none) :
    processCallbackQuery env o st q = none := by
  simp [processCallbackQuery, h]

theorem processCallbackQuery_change_hit (env : Config) (o : Oracle)
    (st : SessionPool) (q : CallbackQuery) (txt userId : String)
    (hd : q.data = some txt)
    (hp : goHasPrefix txt commandChangePreset = true)
    (hl : (List.lookup (goTrimSpace (goTrimPrefix txt commandChangePreset))
      env.soxPresets).isSome = true)
    (hu : q.sender.username = some userId)
    (ha : isAvailableId env userId = true) :
    processCallbackQuery env o st q =
      some (cbFinish o q.id
        (messagePresetChanged ++ ": " ++
          goTrimSpace (goTrimPrefix txt commandChangePreset))
        ⟨mapSet st.sessions userId
          ⟨userId, goTrimSpace (goTrimPrefix txt commandChangePreset)⟩⟩) := by
  obtain ⟨p, hp'⟩ := Option.isSome_iff_exists.mp hl
  simp [processCallbackQuery, hd, hp, hp', hu, ha]

theorem processCallbackQuery_change_hit_unauth (env : Config) (o : Oracle)
    (st : SessionPool) (q : CallbackQuery) (txt userId : String)
    (hd : q.data = some txt)
    (hp : goHasPrefix txt commandChangePreset = true)
    (hl : (List.lookup (goTrimSpace (goTrimPrefix txt commandChangePreset))
      env.soxPresets).isSome = true)
    (hu : q.sender.username = some userId)
    (ha : isAvailableId env userId = false) :
    processCallbackQuery env o st q = some (false, st, []) := by
  obtain ⟨p, hp'⟩ := Option.isSome_iff_exists.mp hl
  simp [processCallbackQuery, hd, hp, hp', hu, ha, cbFinish_empty]

theorem processCallbackQuery_change_user_none (env : Config) (o : Oracle)
    (st : SessionPool) (q : CallbackQuery) (txt : String)
    (hd : q.data = some txt)
    (hp : goHasPrefix txt commandChangePreset = true)
    (hl : (List.lookup (goTrimSpace (goTrimPrefix txt commandChangePreset))
      env.soxPresets).isSome = true)
    (hu : q.sender.username = none) :
    processCallbackQuery env o st q = none := by
  obtain ⟨p, hp'⟩ := Option.isSome_iff_exists.mp hl
  simp [processCallbackQuery, hd, hp, hp', hu]

theorem processCallbackQuery_change_miss (env : Config) (o : Oracle)
    (st : SessionPool) (q : CallbackQuery) (txt : String)
    (hd : q.data = some txt)
    (hp : goHasPrefix txt commandChangePreset = true)
    (hl : List.lookup (goTrimSpace (goTrimPrefix txt commandChangePreset))
      env.soxPresets = none) :
    processCallbackQuery env o st q =
      some (cbFinish o q.id
        (messageNoMatchingPreset ++ ": " ++
          goTrimSpace (goTrimPrefix txt commandChangePreset)) st) := by
  simp [processCallbackQuery, hd, hp, hl]

theorem processCallbackQuery_cancel (env : Config) (o : Oracle)
    (st : SessionPool) (q : CallbackQuery) (txt : String)
    (hd : q.data = some txt)
    (hp : goHasPrefix txt commandChangePreset = false)
    (hc : goHasPrefix txt commandCancel = true) :
    processCallbackQuery env o st q =
      some (cbFinish o q.id messageCanceled st) := by
  simp [processCallbackQuery, hd, hp, hc]

theorem triple_eta (x : Bool × SessionPool × List Event) (st : SessionPool)
    (h : x.2.1 = st) : x = (x.1, st, x.2.2) := by
  rw [← h]

theorem processCallbackQuery_other (env : Config) (o : Oracle)
    (st : SessionPool) (q : CallbackQuery) (txt : String)
    (hd : q.data = some txt)
    (hp : goHasPrefix txt commandChangePreset = false)
    (hc : goHasPrefix txt commandCancel = false) :
    processCallbackQuery env o st q = some (false, st, []) := by
  simp [processCallbackQuery, hd, hp, hc, cbFinish_empty]

theorem processCallbackQuery_shape (env : Config) (o : Oracle)
    (st : SessionPool) (q : CallbackQuery) (r : Bool × SessionPool × List Event)
    (h : processCallbackQuery env o st q = some r) :
    ∃ msg pool, r = cbFinish o q.id msg pool := by
  unfold processCallbackQuery at h
  cases hd : q.data with
  | none => simp [hd] at h
  | some txt =>
    simp only [hd] at h
    split at h
    · split at h
      · split at h
        · exact absurd h (by simp)
        · split at h <;> exact ⟨_, _, (Option.some.inj h).symm⟩
      · exact ⟨_, _, (Option.some.inj h).symm⟩
    · split at h <;> exact ⟨_, _, (Option.some.inj h).symm⟩

theorem processCallbackQuery_pool (env : Config) (o : Oracle)
    (st : SessionPool) (q : CallbackQuery) (r : Bool × SessionPool × List Event)
    (h : processCallbackQuery env o st q = some r) :
    r.2.1 = st ∨
    ∃ userId preset, isAvailableId env userId = true ∧
      (List.lookup preset env.soxPresets).isSome = true ∧
      r.2.1 = ⟨mapSet st.sessions userId ⟨userId, preset⟩⟩ := by
  unfold processCallbackQuery at h
  cases hd : q.data with
  | none => simp [hd] at h
  | some txt =>
    simp only [hd] at h
    split at h
    · rename_i hpre
      split at h
      · rename_i p hp
        split at h
        · exact absurd h (by simp)
        · rename_i userId hu
          split at h
          · rename_i hna
            left
            rw [← Option.some.inj h, cbFinish_pool]
          · rename_i hna
            right
            refine ⟨userId, goTrimSpace (goTrimPrefix txt commandChangePreset),
              ?_, ?_, ?_⟩
            · revert hna
              cases isAvailableId env userId <;> simp
            · simp [hp]
            · rw [← Option.some.inj h, cbFinish_pool]
      · left
        rw [← Option.some.inj h, cbFinish_pool]
    · split at h <;>
        (left; rw [← Option.some.inj h, cbFinish_pool])

theorem processUpdate_voice_trace (env : Config) (o : Oracle)
    (st : SessionPool) (m : Msg) (userId : String) (sess : Session)
    (fileId : String)
    (h₁ : m.sender.username = some userId)
    (h₂ : isAvailableId env userId = true)
    (h₃ : List.lookup userId st.sessions = some sess)
    (h₄ : m.voice = some fileId) :
    ∃ mid, (processUpdate env o st m).2 = Event.lock :: mid ++ [Event.unlock] ∧
      Event.fetchFile fileId ∈ mid ∧
      (∀ data, o.getFileData fileId = Except.ok data →
        Event.convertCall env.soxPath
          (soxArgs env.soxPresets sess.selectedPreset) ∈ mid) := by
  cases hfd : o.getFileData fileId with
  | error e =>
    refine ⟨[Event.sendChatAction "record_audio", Event.fetchFile fileId,
      Event.sendMessage ("Failed to synthesize voice: " ++ e)
        Markup.replyKeyboard], ?_, ?_, ?_⟩
    · simp [processUpdate, h₁, h₂, h₃, h₄, synthesizeVoiceWithFileId, hfd]
    · simp
    · intro data hdata
      simp [hfd] at hdata
  | ok data =>
    by_cases hr : (o.runSox (soxArgs env.soxPresets sess.selectedPreset)
        data).ok
    · refine ⟨[Event.sendChatAction "record_audio", Event.fetchFile fileId,
        Event.convertCall env.soxPath
          (soxArgs env.soxPresets sess.selectedPreset),
        Event.sendChatAction "upload_audio",
        Event.sendVoice (some (voiceCaption env sess.selectedPreset))],
        ?_, ?_, ?_⟩
      · simp [processUpdate, h₁, h₂, h₃, h₄, synthesizeVoiceWithFileId, hfd,
          soxConvert, hr]
      · simp
      · intro _ _
        simp
    · refine ⟨[Event.sendChatAction "record_audio", Event.fetchFile fileId,
        Event.convertCall env.soxPath
          (soxArgs env.soxPresets sess.selectedPreset),
        Event.sendMessage ("Failed to synthesize voice: " ++
          ((o.runSox (soxArgs env.soxPresets sess.selectedPreset)
            data).stdout ++ " " ++
           (o.runSox (soxArgs env.soxPresets sess.selectedPreset)
            data).stderr)) Markup.replyKeyboard], ?_, ?_, ?_⟩
      · simp [processUpdate, h₁, h₂, h₃, h₄, synthesizeVoiceWithFileId, hfd,
          soxConvert, hr]
      · simp
      · intro _ _
        simp

theorem processCallbackQuery_no_lock (env : Config) (o : Oracle)
    (st : SessionPool) (q : CallbackQuery) (r : Bool × SessionPool × List Event)
    (h : processCallbackQuery env o st q = some r) :
    Event.lock ∉ r.2.2 ∧ Event.unlock ∉ r.2.2 := by
  obtain ⟨msg, pool, hr⟩ := processCallbackQuery_shape env o st q r h
  rw [hr]
  exact cbFinish_no_lock o q.id msg pool

theorem stepUpdate_keys (env : Config) (o : Oracle) (st : SessionPool)
    (u : Update) (st₁ : SessionPool) (hs : stepUpdate env o st u = some st₁)
    (hI : ∀ x, x ∈ mapKeys st.sessions ↔ x ∈ env.availableIds) :
    ∀ x, x ∈ mapKeys st₁.sessions ↔ x ∈ env.availableIds := by
  cases u with
  | msg m =>
    simp only [stepUpdate] at hs
    injection hs with hs
    subst hs
    exact hI
  | cb q =>
    simp only [stepUpdate] at hs
    cases hq : processCallbackQuery env o st q with
    | none => rw [hq] at hs; simp at hs
    | some r =>
      rw [hq] at hs
      simp only [Option.map_some'] at hs
      injection hs with hs
      rcases processCallbackQuery_pool env o st q r hq with hsame |
        ⟨uid, preset, hav, hsomep, hpool⟩
      · rw [← hs, hsame]; exact hI
      · intro x
        rw [← hs, hpool]
        show x ∈ mapKeys (mapSet st.sessions uid ⟨uid, preset⟩) ↔ _
        rw [mem_mapKeys_mapSet, hI x]
        constructor
        · rintro (rfl | hx)
          · exact (isAvailableId_iff env x).mp hav
          · exact hx
        · exact Or.inr

theorem stepUpdate_preset (env : Config) (o : Oracle) (st : SessionPool)
    (u : Update) (st₁ : SessionPool) (hs : stepUpdate env o st u = some st₁)
    (hP : ∀ k s, List.lookup k st.sessions = some s →
      s.selectedPreset = "" ∨
      (List.lookup s.selectedPreset env.soxPresets).isSome = true) :
    ∀ k s, List.lookup k st₁.sessions = some s →
      s.selectedPreset = "" ∨
      (List.lookup s.selectedPreset env.soxPresets).isSome = true := by
  cases u with
  | msg m =>
    simp only [stepUpdate] at hs
    injection hs with hs
    subst hs
    exact hP
  | cb q =>
    simp only [stepUpdate] at hs
    cases hq : processCallbackQuery env o st q with
    | none => rw [hq] at hs; simp at hs
    | some r =>
      rw [hq] at hs
      simp only [Option.map_some'] at hs
      injection hs with hs
      rcases processCallbackQuery_pool env o st q r hq with hsame |
        ⟨uid, preset, hav, hsomep, hpool⟩
      · rw [← hs, hsame]; exact hP
      · intro k s hks
        rw [← hs, hpool] at hks
        replace hks : List.lookup k (mapSet st.sessions uid ⟨uid, preset⟩) =
          some s := hks
        rw [lookup_mapSet] at hks
        by_cases hk : k = uid
        · rw [if_pos hk] at hks
          injection hks with hks
          right
          rw [← hks]
          exact hsomep
        · rw [if_neg hk] at hks
          exact hP k s hks

theorem reach_keys (env : Config) (o : Oracle) (us : List Update) :
    ∀ (st st' : SessionPool),
    (∀ x, x ∈ mapKeys st.sessions ↔ x ∈ env.availableIds) →
    reach env o st us = some st' →
    ∀ x, x ∈ mapKeys st'.sessions ↔ x ∈ env.availableIds := by
  induction us with
  | nil =>
    intro st st' hI h
    simp only [reach] at h
    injection h with h
    subst h
    exact hI
  | cons u us ih =>
    intro st st' hI h
    simp only [reach] at h
    cases hs : stepUpdate env o st u with
    | none => rw [hs] at h; cases h
    | some st₁ =>
      rw [hs] at h
      exact ih st₁ st' (stepUpdate_keys env o st u st₁ hs hI) h

theorem reach_preset (env : Config) (o : Oracle) (us : List Update) :
    ∀ (st st' : SessionPool),
    (∀ k s, List.lookup k st.sessions = some s →
      s.selectedPreset = "" ∨
      (List.lookup s.selectedPreset env.soxPresets).isSome = true) →
    reach env o st us = some st' →
    ∀ k s, List.lookup k st'.sessions = some s →
      s.selectedPreset = "" ∨
      (List.lookup s.selectedPreset env.soxPresets).isSome = true := by
  induction us with
  | nil =>
    intro st st' hP h
    simp only [reach] at h
    injection h with h
    subst h
    exact hP
  | cons u us ih =>
    intro st st' hP h
    simp only [reach] at h
    cases hs : stepUpdate env o st u with
    | none => rw [hs] at h; cases h
    | some st₁ =>
      rw [hs] at h
      exact ih st₁ st' (stepUpdate_preset env o st u st₁ hs hP) h

/-! ## Claims -/

/-- C1: for every input byte sequence and every preset name, `soxConvert`
invokes the configured binary with the fixed argument prefix
`-t opus - -t ogg -` followed by the configured preset's argument list
verbatim when the name is a key of the preset table, and by the hard-coded
fallback `speed 1.0` otherwise. -/
theorem claim1_converter_invocation (env : Config) (o : Oracle)
    (original preset : String) :
    (soxConvert env o original preset).2 =
      [Event.convertCall env.soxPath (soxArgs env.soxPresets preset)] ∧
    (∀ p, List.lookup preset env.soxPresets = some p →
      soxArgs env.soxPresets preset =
        ["-t", "opus", "-", "-t", "ogg", "-"] ++ p) ∧
    (List.lookup preset env.soxPresets = none →
      soxArgs env.soxPresets preset =
        ["-t", "opus", "-", "-t", "ogg", "-"] ++ ["speed", "1.0"]) := by
  refine ⟨rfl, ?_, ?_⟩
  · intro p hp
    simp [soxArgs, hp]
  · intro hp
    simp [soxArgs, hp, soxDefaultPreset]

/-- Witness for C1 at the sample configuration: the configured preset
"fast" appends its argument list, the unconfigured empty name falls back
to `speed 1.0`. -/
theorem claim1_converter_invocation_witness :
    List.lookup "fast" wEnv.soxPresets = some ["speed", "1.6"] ∧
    soxArgs wEnv.soxPresets "fast" =
      ["-t", "opus", "-", "-t", "ogg", "-"] ++ ["speed", "1.6"] ∧
    List.lookup "" wEnv.soxPresets = none ∧
    soxArgs wEnv.soxPresets "" =
      ["-t", "opus", "-", "-t", "ogg", "-"] ++ ["speed", "1.0"] :=
  ⟨by decide,
   (claim1_converter_invocation wEnv wOracle "x" "fast").2.1
     ["speed", "1.6"] (by decide),
   by decide,
   (claim1_converter_invocation wEnv wOracle "x" "").2.2 (by decide)⟩

/-- C2 counterexample: the sender mallory is not on the allow-list, yet
the cancel callback is acknowledged and the originating message is
edited — outbound traffic for an unauthorized update, contradicting the
claim that such updates produce no reply of any kind. -/
theorem claim2_counterexample :
    isAvailableId wEnv "mallory" = false ∧
    processCallbackQuery wEnv wOracle wPool wQCancelUnauthorized =
      some (true, wPool,
        [Event.answerCallback "q3" "Canceled.",
         Event.editMessage "Canceled."]) ∧
    (Event.answerCallback "q3" "Canceled.").isOutbound = true := by
  refine ⟨by decide, by decide, by decide⟩

/-- C2 (amended): message updates from a sender with no username or a
sender outside the allow-list produce no events at all; for callback
queries, authorization is checked only on the change-preset path with an
existing preset name — there an unauthorized sender gets no reply and no
session change — while a cancel payload is acknowledged (and the message
edited) regardless of the sender's identity. -/
theorem claim2_unauthorized_silence (env : Config) (o : Oracle)
    (st : SessionPool) :
    (∀ m, m.sender.username = none → processUpdate env o st m = (false, [])) ∧
    (∀ m u, m.sender.username = some u → isAvailableId env u = false →
      processUpdate env o st m = (false, [])) ∧
    (∀ q txt u, q.data = some txt →
      goHasPrefix txt commandChangePreset = true →
      (List.lookup (goTrimSpace (goTrimPrefix txt commandChangePreset))
        env.soxPresets).isSome = true →
      q.sender.username = some u → isAvailableId env u = false →
      processCallbackQuery env o st q = some (false, st, [])) ∧
    (∀ q txt, q.data = some txt →
      goHasPrefix txt commandChangePreset = false →
      goHasPrefix txt commandCancel = true →
      ∃ r ev, processCallbackQuery env o st q = some (r, st, ev) ∧
        Event.answerCallback q.id messageCanceled ∈ ev) := by
  refine ⟨?_, ?_, ?_, ?_⟩
  · intro m h
    exact processUpdate_username_none env o st m h
  · intro m u h h₂
    exact processUpdate_unauthorized env o st m u h h₂
  · intro q txt u hd hp hl hu ha
    exact processCallbackQuery_change_hit_unauth env o st q txt u hd hp hl hu ha
  · intro q txt hd hp hc
    have h := processCallbackQuery_cancel env o st q txt hd hp hc
    refine ⟨(cbFinish o q.id messageCanceled st).1,
      (cbFinish o q.id messageCanceled st).2.2, ?_, ?_⟩
    · rw [h]
      exact congrArg some
        (triple_eta _ st (cbFinish_pool o q.id messageCanceled st))
    · exact cbFinish_mem_answer o q.id messageCanceled st (by decide)

/-- Witness for C2 (amended) at concrete inputs: silence for the
username-less sender, for the unauthorized message sender and for the
unauthorized change-preset callback; acknowledgement of an unauthorized
cancel callback. -/
theorem claim2_unauthorized_silence_witness :
    wMsgNoUsername.sender.username = none ∧
    processUpdate wEnv wOracle wPool wMsgNoUsername = (false, []) ∧
    isAvailableId wEnv "mallory" = false ∧
    processUpdate wEnv wOracle wPool wMsgUnauthorized = (false, []) ∧
    processCallbackQuery wEnv wOracle wPool wQChangeUnauthorized =
      some (false, wPool, []) ∧
    (∃ r ev, processCallbackQuery wEnv wOracle wPool wQCancelUnauthorized =
      some (r, wPool, ev) ∧
      Event.answerCallback "q3" messageCanceled ∈ ev) :=
  ⟨rfl,
   (claim2_unauthorized_silence wEnv wOracle wPool).1 wMsgNoUsername rfl,
   by decide,
   (claim2_unauthorized_silence wEnv wOracle wPool).2.1 wMsgUnauthorized
     "mallory" rfl (by decide),
   (claim2_unauthorized_silence wEnv wOracle wPool).2.2.1 wQChangeUnauthorized
     "/presetchange fast" "mallory" rfl (by decide) (by decide) rfl (by decide),
   (claim2_unauthorized_silence wEnv wOracle wPool).2.2.2 wQCancelUnauthorized
     "/cancel" rfl (by decide) (by decide)⟩

/-- C3 counterexample: a callback query whose optional payload is absent
makes `processCallbackQuery` dereference a nil pointer (`*query.Data`),
modelled as `none`: the handler does not run to completion, contradicting
the claim that no incoming update can cause a crash. -/
theorem claim3_counterexample :
    processCallbackQuery wEnv wOracle wPool wQNoPayload = none := by
  decide

/-- C3 (amended): the message handler always runs to completion (it is a
total function of the update), and the callback handler runs to completion
provided the payload is present and, when the payload is a change-preset
command naming a configured preset, the sender has a username; a callback
with an absent payload (or an absent username on that path) faults. -/
theorem claim3_no_crash (env : Config) (o : Oracle) (st : SessionPool)
    (q : CallbackQuery) (d : String)
    (hd : q.data = some d)
    (hu : goHasPrefix d commandChangePreset = true →
      (List.lookup (goTrimSpace (goTrimPrefix d commandChangePreset))
        env.soxPresets).isSome = true →
      q.sender.username.isSome = true) :
    (processCallbackQuery env o st q).isSome = true := by
  by_cases hp : goHasPrefix d commandChangePreset = true
  · by_cases hl : (List.lookup (goTrimSpace (goTrimPrefix d
        commandChangePreset)) env.soxPresets).isSome = true
    · obtain ⟨u, husome⟩ := Option.isSome_iff_exists.mp (hu hp hl)
      by_cases ha : isAvailableId env u = true
      · rw [processCallbackQuery_change_hit env o st q d u hd hp hl husome ha]
        rfl
      · have ha' : isAvailableId env u = false := by
          revert ha
          cases isAvailableId env u <;> simp
        rw [processCallbackQuery_change_hit_unauth env o st q d u hd hp hl
          husome ha']
        rfl
    · have hl' : List.lookup (goTrimSpace (goTrimPrefix d
          commandChangePreset)) env.soxPresets = none := by
        revert hl
        cases List.lookup (goTrimSpace (goTrimPrefix d commandChangePreset))
          env.soxPresets <;> simp
      rw [processCallbackQuery_change_miss env o st q d hd hp hl']
      rfl
  · have hp' : goHasPrefix d commandChangePreset = false := by
      revert hp
      cases goHasPrefix d commandChangePreset <;> simp
    by_cases hc : goHasPrefix d commandCancel = true
    · rw [processCallbackQuery_cancel env o st q d hd hp' hc]
      rfl
    · have hc' : goHasPrefix d commandCancel = false := by
        revert hc
        cases goHasPrefix d commandCancel <;> simp
      rw [processCallbackQuery_other env o st q d hd hp' hc']
      rfl

/-- Witness for C3 (amended): the change-preset callback with payload and
username present completes. -/
theorem claim3_no_crash_witness :
    wQChange.data = some "/presetchange fast" ∧
    (processCallbackQuery wEnv wOracle wPool wQChange).isSome = true :=
  ⟨rfl, claim3_no_crash wEnv wOracle wPool wQChange "/presetchange fast" rfl
    (fun _ _ => rfl)⟩

/-- C5 counterexample: with the sox process failing with stdout "warn" and
stderr "err", the returned error message is "warn err" — the two captured
texts joined by a space — and not their plain concatenation "warnerr". -/
theorem claim5_counterexample :
    (soxConvert wEnv wOracleSoxFail "orig" "fast").1 =
      Except.error "warn err" ∧
    ("warn err" : String) ≠ "warn" ++ "err" := by
  refine ⟨rfl, by decide⟩

/-- C5 (amended): on a zero exit status the converter returns exactly the
captured stdout bytes; on failure it returns an error whose message is the
captured stdout text, a single space, then the captured stderr text. -/
theorem claim5_converter_result (env : Config) (o : Oracle)
    (original preset : String) :
    ((o.runSox (soxArgs env.soxPresets preset) original).ok = true →
      (soxConvert env o original preset).1 =
        Except.ok (o.runSox (soxArgs env.soxPresets preset) original).stdout) ∧
    ((o.runSox (soxArgs env.soxPresets preset) original).ok = false →
      (soxConvert env o original preset).1 =
        Except.error
          ((o.runSox (soxArgs env.soxPresets preset) original).stdout ++
            " " ++
           (o.runSox (soxArgs env.soxPresets preset) original).stderr)) := by
  constructor <;> intro h <;> simp [soxConvert, h]

/-- Witness for C5 (amended): a succeeding process returns its stdout, a
failing one the space-joined stdout/stderr message. -/
theorem claim5_converter_result_witness :
    (wOracle.runSox (soxArgs wEnv.soxPresets "fast") "abc").ok = true ∧
    (soxConvert wEnv wOracle "abc" "fast").1 = Except.ok "abc" ∧
    (wOracleSoxFail.runSox (soxArgs wEnv.soxPresets "fast") "abc").ok =
      false ∧
    (soxConvert wEnv wOracleSoxFail "abc" "fast").1 =
      Except.error "warn err" :=
  ⟨rfl,
   (claim5_converter_result wEnv wOracle "abc" "fast").1 rfl,
   rfl,
   (claim5_converter_result wEnv wOracleSoxFail "abc" "fast").2 rfl⟩

/-- C4: the domain of the session store is invariant — it equals the
static allow-list right after startup, and stays equal to it after any
sequence of processed updates (message or callback); updates only mutate
values of existing entries. -/
theorem claim4_pool_domain_invariant (env : Config) (o : Oracle)
    (us : List Update) (st' : SessionPool)
    (h : reach env o (initPool env.availableIds) us = some st') :
    ∀ x, x ∈ mapKeys st'.sessions ↔ x ∈ env.availableIds :=
  reach_keys env o us (initPool env.availableIds) st'
    (fun x => mem_mapKeys_initPool env.availableIds x) h

/-- Witness for C4: after a successful preset-change callback the
store's key set still equals the allow-list. -/
theorem claim4_pool_domain_invariant_witness :
    reach wEnv wOracle (initPool wEnv.availableIds) [Update.cb wQChange] =
      some ⟨[("alice", ⟨"alice", "fast"⟩)]⟩ ∧
    ("alice" ∈ mapKeys
        (⟨[("alice", ⟨"alice", "fast"⟩)]⟩ : SessionPool).sessions ↔
      "alice" ∈ wEnv.availableIds) :=
  ⟨by decide,
   claim4_pool_domain_invariant wEnv wOracle [Update.cb wQChange]
     ⟨[("alice", ⟨"alice", "fast"⟩)]⟩ (by decide) "alice"⟩

/-- C6: a change-preset callback whose trailing name is not a key of the
preset table is acknowledged with "No such preset: name" and leaves the
sender's session pool unchanged. -/
theorem claim6_unknown_preset (env : Config) (o : Oracle) (st : SessionPool)
    (q : CallbackQuery) (txt name : String)
    (hd : q.data = some txt)
    (hp : goHasPrefix txt commandChangePreset = true)
    (hn : name = goTrimSpace (goTrimPrefix txt commandChangePreset))
    (hl : List.lookup name env.soxPresets = none) :
    ∃ r ev, processCallbackQuery env o st q = some (r, st, ev) ∧
      Event.answerCallback q.id (messageNoMatchingPreset ++ ": " ++ name) ∈
        ev := by
  subst hn
  have h := processCallbackQuery_change_miss env o st q txt hd hp hl
  have hlen : 0 < (messageNoMatchingPreset ++ ": " ++
      goTrimSpace (goTrimPrefix txt commandChangePreset)).length := by
    rw [String.length_append, String.length_append]
    have : 0 < messageNoMatchingPreset.length := by decide
    omega
  refine ⟨(cbFinish o q.id (messageNoMatchingPreset ++ ": " ++
      goTrimSpace (goTrimPrefix txt commandChangePreset)) st).1,
    (cbFinish o q.id (messageNoMatchingPreset ++ ": " ++
      goTrimSpace (goTrimPrefix txt commandChangePreset)) st).2.2, ?_, ?_⟩
  · rw [h]
    exact congrArg some (triple_eta _ st (cbFinish_pool o q.id _ st))
  · exact cbFinish_mem_answer o q.id _ st hlen

/-- Witness for C6: the "nope" preset is not configured; the callback is
acknowledged with "No such preset: nope" and the pool is unchanged. -/
theorem claim6_unknown_preset_witness :
    wQMiss.data = some "/presetchange nope" ∧
    List.lookup "nope" wEnv.soxPresets = none ∧
    (∃ r ev, processCallbackQuery wEnv wOracle wPool wQMiss =
      some (r, wPool, ev) ∧
      Event.answerCallback "q2" (messageNoMatchingPreset ++ ": " ++ "nope") ∈
        ev) :=
  ⟨rfl, by decide,
   claim6_unknown_preset wEnv wOracle wPool wQMiss "/presetchange nope"
     "nope" rfl (by decide) (by decide) (by decide)⟩

/-- C7 counterexample: with exactly one configured preset, named "Cancel"
(the cancel button's label), the preset keyboard has 1 button, not
N + 1 = 2 — the cancel entry overwrites the like-named preset's entry in
the button map. -/
theorem claim7_counterexample :
    wEnvCancel.soxPresets.length = 1 ∧
    processUpdate wEnvCancel wOracle wPool wMsgPresetCmd =
      (true, [Event.lock,
        Event.sendMessage messageSelectPreset
          (Markup.inline [(messageCancel, commandCancel)]),
        Event.unlock]) ∧
    ([(messageCancel, commandCancel)] : List (String × String)).length ≠
      wEnvCancel.soxPresets.length + 1 := by
  refine ⟨rfl, by decide, by decide⟩

/-- C7 (amended): for an authorized preset command, zero configured
presets yield the "No preset available." reply; N ≥ 1 presets yield an
inline keyboard whose button count is N + 1 when no preset is named
"Cancel", and N when one is (the cancel button overwrites that entry). -/
theorem claim7_preset_keyboard (env : Config) (o : Oracle)
    (st : SessionPool) (m : Msg) (userId : String) (sess : Session)
    (txt : String)
    (h₁ : m.sender.username = some userId)
    (h₂ : isAvailableId env userId = true)
    (h₃ : List.lookup userId st.sessions = some sess)
    (h₄ : m.voice = none) (h₅ : m.text = some txt)
    (h₆ : goHasPrefix txt commandStart = false)
    (h₇ : goHasPrefix txt commandPreset = true)
    (hnd : (env.soxPresets.map Prod.fst).Nodup) :
    (env.soxPresets.length = 0 →
      processUpdate env o st m =
        (o.sendOk, [Event.lock,
          Event.sendMessage messageNoPreset Markup.replyKeyboard,
          Event.unlock])) ∧
    (0 < env.soxPresets.length →
      processUpdate env o st m =
        (o.sendOk, [Event.lock,
          Event.sendMessage messageSelectPreset
            (Markup.inline (presetKeys env.soxPresets)),
          Event.unlock]) ∧
      (presetKeys env.soxPresets).length =
        (if messageCancel ∈ env.soxPresets.map Prod.fst
         then env.soxPresets.length else env.soxPresets.length + 1)) := by
  have hup := processUpdate_text env o st m userId sess txt h₁ h₂ h₃ h₄ h₅
  constructor
  · intro hz
    rw [hup]
    simp [classifyText, h₆, h₇, hz]
  · intro hpos
    constructor
    · rw [hup]
      simp [classifyText, h₆, h₇, hpos]
    · exact presetKeys_length env.soxPresets hnd

/-- Witness for C7 (amended): one preset named "fast" gives a keyboard of
1 + 1 = 2 buttons. -/
theorem claim7_preset_keyboard_witness :
    isAvailableId wEnv "alice" = true ∧
    0 < wEnv.soxPresets.length ∧
    (wEnv.soxPresets.map Prod.fst).Nodup ∧
    (processUpdate wEnv wOracle wPool wMsgPresetCmd =
      (true, [Event.lock,
        Event.sendMessage messageSelectPreset
          (Markup.inline (presetKeys wEnv.soxPresets)),
        Event.unlock]) ∧
     (presetKeys wEnv.soxPresets).length =
       (if messageCancel ∈ wEnv.soxPresets.map Prod.fst
        then wEnv.soxPresets.length else wEnv.soxPresets.length + 1)) :=
  ⟨by decide, by decide, by decide,
   (claim7_preset_keyboard wEnv wOracle wPool wMsgPresetCmd "alice"
     ⟨"alice", ""⟩ "/preset" rfl (by decide) (by decide) rfl rfl
     (by decide) (by decide) (by decide)).2 (by decide)⟩

/-- C8: an authorized non-voice message is classified by case-sensitive
prefix match, first match wins, in the order start, preset, help; text
matching none of these is echoed back as "Unknown command: text". -/
theorem claim8_text_classification (env : Config) (o : Oracle)
    (st : SessionPool) (m : Msg) (userId : String) (sess : Session)
    (txt : String)
    (h₁ : m.sender.username = some userId)
    (h₂ : isAvailableId env userId = true)
    (h₃ : List.lookup userId st.sessions = some sess)
    (h₄ : m.voice = none) (h₅ : m.text = some txt) :
    processUpdate env o st m =
      (o.sendOk, [Event.lock,
        Event.sendMessage (classifyText env txt).1 (classifyText env txt).2,
        Event.unlock]) ∧
    (goHasPrefix txt commandStart = true →
      (classifyText env txt).1 = messageDefault) ∧
    (goHasPrefix txt commandStart = false →
      goHasPrefix txt commandPreset = true →
      (classifyText env txt).1 =
        (if env.soxPresets.length > 0 then messageSelectPreset
         else messageNoPreset)) ∧
    (goHasPrefix txt commandStart = false →
      goHasPrefix txt commandPreset = false →
      goHasPrefix txt commandHelp = true →
      (classifyText env txt).1 = getHelp) ∧
    (goHasPrefix txt commandStart = false →
      goHasPrefix txt commandPreset = false →
      goHasPrefix txt commandHelp = false →
      (classifyText env txt).1 = messageUnknownCommand ++ ": " ++ txt) := by
  refine ⟨processUpdate_text env o st m userId sess txt h₁ h₂ h₃ h₄ h₅,
    ?_, ?_, ?_, ?_⟩
  · intro h
    simp [classifyText, h]
  · intro h h'
    by_cases hl : env.soxPresets.length > 0 <;>
      simp [classifyText, h, h', hl]
  · intro h h' h''
    simp [classifyText, h, h', h'']
  · intro h h' h''
    simp [classifyText, h, h', h'']

/-- Witness for C8: "hello" matches no command prefix and is echoed as
"Unknown command: hello". -/
theorem claim8_text_classification_witness :
    isAvailableId wEnv "alice" = true ∧
    List.lookup "alice" wPool.sessions = some ⟨"alice", ""⟩ ∧
    processUpdate wEnv wOracle wPool wMsgHello =
      (true, [Event.lock,
        Event.sendMessage ("Unknown command: hello") Markup.replyKeyboard,
        Event.unlock]) := by
  refine ⟨by decide, by decide, ?_⟩
  have h := (claim8_text_classification wEnv wOracle wPool wMsgHello "alice"
    ⟨"alice", ""⟩ "hello" rfl (by decide) (by decide) rfl rfl).1
  rw [h]
  rfl

/-- C9: a message-path transaction holds the pool lock for its whole
duration — the trace of an authorized voice transaction is the lock event,
then (among others) the network fetch and the converter invocation, then
the unlock event — while callback-query handling emits no lock or unlock
event at all, yet on a successful preset change rewrites the session
store. -/
theorem claim9_lock_scope (env : Config) (o : Oracle) (st : SessionPool) :
    (∀ m userId sess fileId,
      m.sender.username = some userId →
      isAvailableId env userId = true →
      List.lookup userId st.sessions = some sess →
      m.voice = some fileId →
      ∃ mid, (processUpdate env o st m).2 =
          Event.lock :: mid ++ [Event.unlock] ∧
        Event.fetchFile fileId ∈ mid ∧
        (∀ data, o.getFileData fileId = Except.ok data →
          Event.convertCall env.soxPath
            (soxArgs env.soxPresets sess.selectedPreset) ∈ mid)) ∧
    (∀ q r, processCallbackQuery env o st q = some r →
      Event.lock ∉ r.2.2 ∧ Event.unlock ∉ r.2.2) ∧
    (∀ q txt userId,
      q.data = some txt →
      goHasPrefix txt commandChangePreset = true →
      (List.lookup (goTrimSpace (goTrimPrefix txt commandChangePreset))
        env.soxPresets).isSome = true →
      q.sender.username = some userId →
      isAvailableId env userId = true →
      ∃ r, processCallbackQuery env o st q = some r ∧
        r.2.1 = ⟨mapSet st.sessions userId
          ⟨userId, goTrimSpace (goTrimPrefix txt commandChangePreset)⟩⟩) := by
  refine ⟨?_, ?_, ?_⟩
  · intro m userId sess fileId h₁ h₂ h₃ h₄
    exact processUpdate_voice_trace env o st m userId sess fileId h₁ h₂ h₃ h₄
  · intro q r h
    exact processCallbackQuery_no_lock env o st q r h
  · intro q txt userId hd hp hl hu ha
    refine ⟨_,
      processCallbackQuery_change_hit env o st q txt userId hd hp hl hu ha,
      ?_⟩
    exact cbFinish_pool o q.id _ _

/-- Witness for C9: the sample voice message's trace is bracketed by
lock/unlock with fetch and conversion inside, and the sample preset-change
callback rewrites alice's session without any lock event. -/
theorem claim9_lock_scope_witness :
    wMsgVoice.voice = some "file1" ∧
    (∃ mid, (processUpdate wEnv wOracle wPool wMsgVoice).2 =
        Event.lock :: mid ++ [Event.unlock] ∧
      Event.fetchFile "file1" ∈ mid ∧
      (∀ data, wOracle.getFileData "file1" = Except.ok data →
        Event.convertCall "/usr/bin/sox" (soxArgs wEnv.soxPresets "") ∈
          mid)) ∧
    (∃ r, processCallbackQuery wEnv wOracle wPool wQChange = some r ∧
      r.2.1 = ⟨mapSet wPool.sessions "alice" ⟨"alice", "fast"⟩⟩) :=
  ⟨rfl,
   (claim9_lock_scope wEnv wOracle wPool).1 wMsgVoice "alice" ⟨"alice", ""⟩
     "file1" rfl (by decide) (by decide) rfl,
   (claim9_lock_scope wEnv wOracle wPool).2.2 wQChange "/presetchange fast"
     "alice" rfl (by decide) (by decide) rfl (by decide)⟩

/-- C10: in every reachable state, each session's selected preset is
either the empty string or a key of the configured preset table. -/
theorem claim10_session_preset_invariant (env : Config) (o : Oracle)
    (us : List Update) (st' : SessionPool)
    (h : reach env o (initPool env.availableIds) us = some st') :
    ∀ k s, List.lookup k st'.sessions = some s →
      s.selectedPreset = "" ∨
      (List.lookup s.selectedPreset env.soxPresets).isSome = true :=
  reach_preset env o us (initPool env.availableIds) st'
    (fun k s hk => Or.inl (lookup_initPool env.availableIds k s hk)) h

/-- Witness for C10: after the sample preset-change callback, alice's
selected preset "fast" is a configured preset name. -/
theorem claim10_session_preset_invariant_witness :
    reach wEnv wOracle (initPool wEnv.availableIds) [Update.cb wQChange] =
      some ⟨[("alice", ⟨"alice", "fast"⟩)]⟩ ∧
    (("fast" : String) = "" ∨
      (List.lookup ("fast" : String) wEnv.soxPresets).isSome = true) :=
  ⟨by decide,
   claim10_session_preset_invariant wEnv wOracle [Update.cb wQChange]
     ⟨[("alice", ⟨"alice", "fast"⟩)]⟩ (by decide) "alice"
     ⟨"alice", "fast"⟩ (by decide)⟩

end BotSox
